import Mathlib

/-!
Verification of the jobs-ui front end (JobScraper repository).

Shallow embedding of the client-side logic of the React front end:

* `src/jobs-ui/src/App.jsx` — JobsPage: the job-list controller
  (filters, pagination, sorting, fetch lifecycle), App: session handling;
* `src/jobs-ui/src/AdminRunsPage.jsx` — run list polling and log fetch;
* `src/jobs-ui/src/api.js` — apiGet and apiPost request construction;
* FiltersBar — vendor list derivation from GET /vendors.

JavaScript idioms are modelled explicitly: absent object fields are
`Option` values, the `x || y` fallback chain uses JS truthiness (empty
string and absent are falsy), `Array.prototype.sort` with a comparator is
modelled as the stable `List.mergeSort` ordered by comparator result at
most 0, and `new Date(s).getTime()` is an abstract parse function
`String → Option Int` where `none` stands for `NaN` (an Invalid Date);
JS `NaN < x` and `x < NaN` are both false.  React effect re-runs are
modelled as trace events; the per-effect `cancelled` flag is modelled by
a fetch epoch captured when a fetch is issued and compared against the
current epoch when its result arrives.
-/

/-! ## JavaScript value helpers -/

/-- JS truthiness of a possibly-absent string: `undefined`, `null` and
the empty string are falsy. -/
def truthy : Option String → Bool
  | none => false
  | some s => !(s == "")

/-- JS fallback `x || ""` for a possibly-absent string. -/
def strFallback : Option String → String
  | none => ""
  | some s => s

/-- JS `a || b` on possibly-absent strings (first operand when truthy). -/
def jsOrStr (a b : Option String) : Option String :=
  if truthy a then a else b

/-- JS `<` on numbers where `none` stands for `NaN`:
any comparison with `NaN` is false. -/
def jsLtInt : Option Int → Option Int → Bool
  | some a, some b => a < b
  | _, _ => false

/-! ## Data model: job records (JobsPage, JobModal) -/

/-- A job record as read defensively by JobsPage: each displayed field can
be absent.  Only the fields the sorting code touches are modelled. -/
structure JobRecord where
  /-- job["Position Title"] -/
  positionTitle : Option String
  /-- job["Post Date"] -/
  postDate : Option String
  /-- job["Raw Location"] -/
  rawLocation : Option String
  /-- job.City -/
  city : Option String
  /-- job.State -/
  state : Option String
  /-- job.Vendor -/
  vendor : Option String
deriving DecidableEq

/-! ## Sorting (JobsPage sortedJobs, handleSort) -/

inductive SortField
  | date
  | title
  | location
  | company
deriving DecidableEq

inductive SortDir
  | asc
  | desc
deriving DecidableEq

/-- compareStrings from sortedJobs: lower-case both values after the
`(x || "")` fallback, then compare; the sign encodes the direction. -/
def compareStrings (sortDirection : SortDir) (aVal bVal : Option String) : Int :=
  let sa := (strFallback aVal).toLower
  let sb := (strFallback bVal).toLower
  if sa < sb then (if sortDirection = SortDir.asc then -1 else 1)
  else if sb < sa then (if sortDirection = SortDir.asc then 1 else -1)
  else 0

/-- The timestamp used by the date comparator:
`a["Post Date"] ? new Date(a["Post Date"]) : null`, then
`da ? da.getTime() : 0`.  A falsy field gives 0; a truthy field is parsed,
where `none` models `NaN` (Invalid Date). -/
def postTime (parse : String → Option Int) (a : JobRecord) : Option Int :=
  match a.postDate with
  | none => some 0
  | some s => if s = "" then some 0 else parse s

/-- The date branch of sortedJobs: compare timestamps with JS `<`
(`NaN` compares neither smaller nor greater, so the comparator returns 0
whenever either side is `NaN`). -/
def compareDates (sortDirection : SortDir) (ta tb : Option Int) : Int :=
  if jsLtInt ta tb then (if sortDirection = SortDir.asc then -1 else 1)
  else if jsLtInt tb ta then (if sortDirection = SortDir.asc then 1 else -1)
  else 0

/-- The location key: `a["Raw Location"] || a.City || a.State || ""`
(the final `|| ""` happens inside compareStrings). -/
def locationValue (a : JobRecord) : Option String :=
  jsOrStr a.rawLocation (jsOrStr a.city a.state)

/-- The comparator passed to `out.sort` in sortedJobs, per sort field. -/
def jobCompare (parse : String → Option Int) (sortField : SortField)
    (sortDirection : SortDir) (a b : JobRecord) : Int :=
  match sortField with
  | SortField.title =>
      compareStrings sortDirection a.positionTitle b.positionTitle
  | SortField.date =>
      compareDates sortDirection (postTime parse a) (postTime parse b)
  | SortField.location =>
      compareStrings sortDirection (locationValue a) (locationValue b)
  | SortField.company =>
      compareStrings sortDirection a.vendor b.vendor

/-- sortedJobs: copy the fetched page and sort it client-side.
`Array.prototype.sort` is required by ECMAScript to be stable; it is
modelled by the stable `List.mergeSort`, ordering `a` before `b` when the
comparator returns at most 0.  A falsy sortField returns the copy
unsorted. -/
def sortedJobs (parse : String → Option Int) (sortField : Option SortField)
    (sortDirection : SortDir) (jobs : List JobRecord) : List JobRecord :=
  match sortField with
  | none => jobs
  | some f =>
      jobs.mergeSort (fun a b => decide (jobCompare parse f sortDirection a b ≤ 0))

/-- The sort-control state of JobsPage. -/
structure SortState where
  sortField : SortField
  sortDirection : SortDir
deriving DecidableEq

def toggleDir : SortDir → SortDir
  | SortDir.asc => SortDir.desc
  | SortDir.desc => SortDir.asc

/-- handleSort: clicking the active column toggles the direction; a new
column becomes active with its default direction (newest first for date,
ascending otherwise). -/
def handleSort (field : SortField) (s : SortState) : SortState :=
  if s.sortField = field then
    { sortField := s.sortField, sortDirection := toggleDir s.sortDirection }
  else
    { sortField := field
      sortDirection := if field = SortField.date then SortDir.desc else SortDir.asc }

/-! ## Vendor list derivation (FiltersBar fetchVendors) -/

/-- A row of the GET /vendors payload. -/
structure VendorRow where
  /-- row.Vendor -/
  vendor : Option String
  /-- row.n -/
  n : Int
deriving DecidableEq

/-- The truthy vendor names extracted by
`data.map((row) => row.Vendor).filter(Boolean)`. -/
def extractedVendorNames (rows : List VendorRow) : List String :=
  (rows.map VendorRow.vendor).filterMap (fun v => if truthy v then v else none)

/-- fetchVendors in FiltersBar: a non-array payload (`none`) yields `[]`;
otherwise extract the truthy names and sort them with
`names.sort((a, b) => a.localeCompare(b))`, modelled as the stable sort by
the string order. -/
def fetchVendorsNames (payload : Option (List VendorRow)) : List String :=
  match payload with
  | none => []
  | some rows =>
      (extractedVendorNames rows).mergeSort (fun a b => decide (a ≤ b))

/-! ## Filters and the jobs-list state machine (JobsPage) -/

/-- The filter state owned by JobsPage. -/
structure Filters where
  vendor : Option String
  searchTerm : Option String
  since : Option String
deriving DecidableEq

/-- A partial filter update as passed to handleFiltersChange: each field
is either untouched (outer `none`) or set to a new, possibly null,
value. -/
structure FilterPatch where
  vendor : Option (Option String)
  searchTerm : Option (Option String)
  since : Option (Option String)
deriving DecidableEq

/-- The object spread in `setFilters((prev) => ({ ...prev, ...partial }))`. -/
def mergeFilters (f : Filters) (p : FilterPatch) : Filters :=
  { vendor := p.vendor.getD f.vendor
    searchTerm := p.searchTerm.getD f.searchTerm
    since := p.since.getD f.since }

def PAGE_SIZE : Nat := 50

/-- The state of JobsPage.  The fetch issued by the latest effect run
carries id fetchEpoch; when the effect deps change, the cleanup sets the
cancelled flag of the previous closure, modelled as that closure keeping
an id strictly below the current epoch. -/
structure JobsState where
  jobs : List JobRecord
  page : Nat
  isLoading : Bool
  error : Option String
  filters : Filters
  sort : SortState
  fetchEpoch : Nat
deriving DecidableEq

/-- The filter part of the /jobs query string: each filter contributes a
parameter exactly when it is truthy. -/
def filterParams (f : Filters) : List (String × String) :=
  (if truthy f.vendor then [("vendor", strFallback f.vendor)] else [])
    ++ (if truthy f.searchTerm then [("q", strFallback f.searchTerm)] else [])
    ++ (if truthy f.since then [("since", strFallback f.since)] else [])

/-- The query parameters of the fetch issued from a given state, in
insertion order: limit, offset, then the active filters. -/
def fetchJobsParams (s : JobsState) : List (String × String) :=
  ("limit", toString PAGE_SIZE)
    :: ("offset", toString (s.page * PAGE_SIZE))
    :: filterParams s.filters

/-- The outcome of a /jobs network call: a successful response carries a
JSON payload (`none` models a non-array value), a failure carries the
error message of the thrown error. -/
inductive FetchResult
  | success (payload : Option (List JobRecord))
  | failure (message : String)
deriving DecidableEq

/-- The events of the JobsPage state machine: a filter change from
FiltersBar, the two pagination buttons, a sort-header click, and the
completion of the fetch with a given id. -/
inductive JobsEv
  | filtersChange (p : FilterPatch)
  | nextPage
  | prevPage
  | sortClick (f : SortField)
  | resolve (fid : Nat) (r : FetchResult)
deriving DecidableEq

/-- The body of fetchJobs up to the await: setIsLoading(true),
setError(null), and a fresh cancellation token for this effect run. -/
def startFetch (s : JobsState) : JobsState :=
  { s with isLoading := true, error := none, fetchEpoch := s.fetchEpoch + 1 }

def canGoPrev (s : JobsState) : Bool :=
  decide (0 < s.page) && !s.isLoading

def canGoNext (s : JobsState) : Bool :=
  decide (s.jobs.length = PAGE_SIZE) && !s.isLoading

/-- The message recorded on a failed jobs fetch:
`err.message || "Failed to load jobs"`. -/
def errMessage (m : String) : String :=
  if m = "" then "Failed to load jobs" else m

/-- Completion of fetch fid.  The closure applies its writes only when
its cancelled flag is still unset, i.e. when no newer effect run has
happened since it was issued; otherwise the state is untouched. -/
def applyResolve (s : JobsState) (fid : Nat) (r : FetchResult) : JobsState :=
  if fid = s.fetchEpoch then
    match r with
    | FetchResult.success payload =>
        { s with jobs := payload.getD [], isLoading := false }
    | FetchResult.failure m =>
        { s with error := some (errMessage m), jobs := [], isLoading := false }
  else s

/-- handleFiltersChange: reset the page to 0 and merge the partial
update.  The fetch effect re-runs exactly when one of its deps (page,
vendor, searchTerm, since) actually changed. -/
def handleFiltersChange (s : JobsState) (p : FilterPatch) : JobsState :=
  let f2 := mergeFilters s.filters p
  let s2 := { s with page := 0, filters := f2 }
  if s.page ≠ 0 ∨ f2 ≠ s.filters then startFetch s2 else s2

/-- One step of the JobsPage state machine.  The pagination buttons are
disabled unless their guard holds, and the click handlers check the
guard again. -/
def stepJobs (s : JobsState) : JobsEv → JobsState
  | JobsEv.filtersChange p => handleFiltersChange s p
  | JobsEv.nextPage =>
      if canGoNext s then startFetch { s with page := s.page + 1 } else s
  | JobsEv.prevPage =>
      if canGoPrev s then startFetch { s with page := s.page - 1 } else s
  | JobsEv.sortClick f => { s with sort := handleSort f s.sort }
  | JobsEv.resolve fid r => applyResolve s fid r

def runJobs (s : JobsState) : List JobsEv → JobsState
  | [] => s
  | e :: tr => runJobs (stepJobs s e) tr

/-- The initial JobsPage state, before the mount effect issues the first
fetch. -/
def jobsInit : JobsState :=
  { jobs := []
    page := 0
    isLoading := false
    error := none
    filters := { vendor := none, searchTerm := none, since := none }
    sort := { sortField := SortField.date, sortDirection := SortDir.desc }
    fetchEpoch := 0 }

/-- The record count of the last successful fetch completion in a trace,
if any. -/
def lastSuccessLength : List JobsEv → Option Nat
  | [] => none
  | e :: tr =>
      match lastSuccessLength tr with
      | some n => some n
      | none =>
          match e with
          | JobsEv.resolve _ (FetchResult.success payload) =>
              some (payload.getD []).length
          | _ => none

/-! ## Run poller (AdminRunsPage) -/

/-- A run record; only the fields the poller logic reads are modelled. -/
structure RunRecord where
  id : Nat
  status : Option String
deriving DecidableEq

structure RunsState where
  runs : List RunRecord
  isLoading : Bool
  error : Option String
deriving DecidableEq

/-- `runs.some((r) => r.status === "running")`, recomputed from the
current run list; the polling interval exists exactly while it is
true. -/
def hasRunning (s : RunsState) : Bool :=
  s.runs.any (fun r => r.status == some "running")

/-- fetchRuns up to the await: setIsLoading(true); setError(null). -/
def startRefresh (s : RunsState) : RunsState :=
  { s with isLoading := true, error := none }

/-- The outcome of a /runs network call; `none` in a success models a
non-array JSON payload. -/
inductive RunsResult
  | success (payload : Option (List RunRecord))
  | failure (message : String)
deriving DecidableEq

/-- `err.message || "Failed to load runs"`. -/
def runsErrMessage (m : String) : String :=
  if m = "" then "Failed to load runs" else m

/-- Completion of fetchRuns: replace the run list wholesale on success;
on failure record the message and clear the list.  AdminRunsPage has no
cancellation flag, so the result always applies. -/
def applyRunsResult (s : RunsState) (r : RunsResult) : RunsState :=
  match r with
  | RunsResult.success payload =>
      { s with runs := payload.getD [], isLoading := false }
  | RunsResult.failure m =>
      { s with error := some (runsErrMessage m), runs := [], isLoading := false }

/-- Events of the runs page: a firing of the 5-second interval (which is
installed exactly while hasRunning holds), a click of the manual Refresh
button (disabled while loading), and a fetch completion. -/
inductive RunsEv
  | tick
  | refreshClick
  | resolve (r : RunsResult)
deriving DecidableEq

/-- One step of the runs page.  A tick can only fire while the interval
is installed, i.e. while hasRunning holds; when it does not, no refresh
is scheduled and the tick is a no-op. -/
def stepRuns (s : RunsState) : RunsEv → RunsState
  | RunsEv.tick => if hasRunning s then startRefresh s else s
  | RunsEv.refreshClick => if s.isLoading then s else startRefresh s
  | RunsEv.resolve r => applyRunsResult s r

def runRuns (s : RunsState) : List RunsEv → RunsState
  | [] => s
  | e :: tr => runRuns (stepRuns s e) tr

/-! ## HTTP request construction (api.js and RunLogsModal) -/

/-- The credentials mode of a fetch call: apiGet and apiPost pass
credentials include; a fetch with no options uses the default
same-origin mode. -/
inductive CredentialsMode
  | includeCreds
  | sameOrigin
deriving DecidableEq

structure HttpRequest where
  method : String
  url : String
  headers : List (String × String)
  credentials : CredentialsMode
  body : Option String
deriving DecidableEq

/-- The fallback base URL of api.js. -/
def API_BASE_URL : String := "http://localhost:8000"

/-- apiGet from api.js.  The browser cookie jar is an input of the
environment; the code never reads document.cookie, so the request does
not depend on it.  Callers in this repository pass no options, so the
options spread contributes nothing. -/
def apiGetRequest (_cookieJar : List (String × String)) (path : String) : HttpRequest :=
  { method := "GET"
    url := API_BASE_URL ++ path
    headers := [("Content-Type", "application/json")]
    credentials := CredentialsMode.includeCreds
    body := none }

/-- apiPost from api.js, with the JSON-encoded body abstracted to a
string. -/
def apiPostRequest (_cookieJar : List (String × String)) (path : String)
    (body : String) : HttpRequest :=
  { method := "POST"
    url := API_BASE_URL ++ path
    headers := [("Content-Type", "application/json")]
    credentials := CredentialsMode.includeCreds
    body := some body }

/-- fetchLogs in RunLogsModal: a bare fetch with no options object, so
no custom headers and the default same-origin credentials mode. -/
def fetchLogsRequest (_cookieJar : List (String × String)) (runId : Nat) : HttpRequest :=
  { method := "GET"
    url := API_BASE_URL ++ "/runs/" ++ toString runId ++ "/logs"
    headers := []
    credentials := CredentialsMode.sameOrigin
    body := none }

/-! ## Session state (App) -/

structure SessionUser where
  id : Nat
  email : String
  role : String
deriving DecidableEq

structure AppState where
  currentUser : Option SessionUser
  authChecked : Bool
deriving DecidableEq

/-- The outcome of the POST /auth/logout call. -/
inductive PostOutcome
  | ok
  | apiError (message : String)
deriving DecidableEq

/-- handleLogout: POST /auth/logout; a failure is only logged, and the
finally block always clears the session user. -/
def handleLogout (s : AppState) (r : PostOutcome) : AppState :=
  match r with
  | PostOutcome.ok => { s with currentUser := none }
  | PostOutcome.apiError _ => { s with currentUser := none }

/-! ## Concrete inputs used by witnesses and counterexamples -/

/-- A record with only a Post Date, used to exercise the date sort. -/
def dateOnly (d : Option String) : JobRecord :=
  { positionTitle := none, postDate := d, rawLocation := none
    city := none, state := none, vendor := none }

/-- A concrete model of new Date(s).getTime() on a handful of date
strings; "bad" is an Invalid Date (NaN). -/
def demoParse : String → Option Int := fun str =>
  if str = "d1" then some 1
  else if str = "bad" then none
  else if str = "neg" then some (-5)
  else some 0

/-- A total date parse (no Invalid Date), for the amended sort claims. -/
def parseAll (str : String) : Option Int := some (Int.ofNat str.length)

/-- A fetched page on which re-sorting by date differs from sorting it
once: the timestamps are 1, 0, 0, 0, NaN, 0. -/
def c5jobs : List JobRecord :=
  [dateOnly (some "d1"), dateOnly (some "a0"), dateOnly (some "b0"),
   dateOnly (some "c0"), dateOnly (some "bad"), dateOnly (some "e0")]

/-- A page holding an unparsable date next to a date before the epoch. -/
def c9jobs : List JobRecord := [dateOnly (some "bad"), dateOnly (some "neg")]

/-- Modelled from the claim wording, for comparison with the code: the
timestamp of a record when missing AND unparsable dates both count as
timestamp 0. -/
def postTimeSpec (parse : String → Option Int) (a : JobRecord) : Int :=
  match a.postDate with
  | none => 0
  | some s => if s = "" then 0 else (parse s).getD 0

/-- Modelled from the claim wording: the date-sorted view when
unparsable dates compare as timestamp 0 instead of as NaN. -/
def sortedJobsSpecDate (parse : String → Option Int) (dir : SortDir)
    (jobs : List JobRecord) : List JobRecord :=
  jobs.mergeSort (fun a b =>
    decide (compareDates dir (some (postTimeSpec parse a))
      (some (postTimeSpec parse b)) ≤ 0))

/-- The initial sort state of JobsPage: date, newest first. -/
def demoSort : SortState :=
  { sortField := SortField.date, sortDirection := SortDir.desc }

/-- A record with every field absent. -/
def jobBlank : JobRecord := dateOnly none

/-- A filter update that selects a vendor. -/
def demoPatch : FilterPatch :=
  { vendor := some (some "RTX"), searchTerm := none, since := none }

/-- A trace whose last successful fetch returns a full page and whose
final fetch fails: select a vendor, receive 50 records, go to the next
page, and have that fetch fail. -/
def c3trace : List JobsEv :=
  [JobsEv.filtersChange demoPatch,
   JobsEv.resolve 1 (FetchResult.success (some (List.replicate PAGE_SIZE jobBlank))),
   JobsEv.nextPage,
   JobsEv.resolve 2 (FetchResult.failure "boom")]

/-- A finished run and a running run, for the poller claims. -/
def runDone : RunRecord := { id := 1, status := some "succeeded" }

def runActive : RunRecord := { id := 2, status := some "running" }

/-- The initial AdminRunsPage state. -/
def runsInit : RunsState := { runs := [], isLoading := false, error := none }

/-! # Helper lemmas -/

theorem runJobs_append (s : JobsState) (tr1 tr2 : List JobsEv) :
    runJobs s (tr1 ++ tr2) = runJobs (runJobs s tr1) tr2 := by
  induction tr1 generalizing s with
  | nil => rfl
  | cons e tr ih => exact ih (stepJobs s e)

theorem fetchEpoch_mono_step (s : JobsState) (e : JobsEv) :
    s.fetchEpoch ≤ (stepJobs s e).fetchEpoch := by
  cases e with
  | filtersChange p =>
      simp only [stepJobs, handleFiltersChange]
      split
      · simp [startFetch]
      · simp
  | nextPage =>
      simp only [stepJobs]
      split
      · simp [startFetch]
      · simp
  | prevPage =>
      simp only [stepJobs]
      split
      · simp [startFetch]
      · simp
  | sortClick f => simp [stepJobs]
  | resolve fid r =>
      simp only [stepJobs, applyResolve]
      split
      · cases r <;> simp
      · simp

theorem fetchEpoch_mono_run (s : JobsState) (tr : List JobsEv) :
    s.fetchEpoch ≤ (runJobs s tr).fetchEpoch := by
  induction tr generalizing s with
  | nil => exact Nat.le_refl _
  | cons e tr ih =>
      exact Nat.le_trans (fetchEpoch_mono_step s e) (ih (stepJobs s e))

theorem applyResolve_stale (s : JobsState) (fid : Nat) (r : FetchResult)
    (h : ¬ fid = s.fetchEpoch) : applyResolve s fid r = s := by
  simp [applyResolve, h]

/-! # Claim theorems -/

/-- Claim C1: stale-response suppression.  If a fetch was issued at or
before the current state (its id is at most the current epoch) and a
state-changing trigger then issues a newer fetch, resolving the old
fetch at any later point of any continuation leaves the state exactly as
it would be without that resolution: the per-effect cancellation flag
captured at fetch start is checked before every state write. -/
theorem fetchJobs_stale_suppression (s : JobsState) (e : JobsEv)
    (tr : List JobsEv) (fid : Nat) (r : FetchResult)
    (hIssued : fid ≤ s.fetchEpoch)
    (hTrigger : s.fetchEpoch < (stepJobs s e).fetchEpoch) :
    runJobs s ((e :: tr) ++ [JobsEv.resolve fid r]) = runJobs s (e :: tr) := by
  have h1 : fid < (runJobs (stepJobs s e) tr).fetchEpoch :=
    Nat.lt_of_lt_of_le (Nat.lt_of_le_of_lt hIssued hTrigger)
      (fetchEpoch_mono_run (stepJobs s e) tr)
  have h2 : runJobs s ((e :: tr) ++ [JobsEv.resolve fid r])
      = applyResolve (runJobs (stepJobs s e) tr) fid r := by
    rw [runJobs_append]
    rfl
  rw [h2]
  exact applyResolve_stale _ fid r (Nat.ne_of_lt h1)

/-- Witness for C1: a filter change supersedes the mount fetch (id 0);
resolving the mount fetch afterwards changes nothing. -/
theorem fetchJobs_stale_suppression_witness :
    runJobs jobsInit
        [JobsEv.filtersChange demoPatch,
         JobsEv.resolve 0 (FetchResult.failure "net")]
      = runJobs jobsInit [JobsEv.filtersChange demoPatch] :=
  fetchJobs_stale_suppression jobsInit (JobsEv.filtersChange demoPatch) [] 0
    (FetchResult.failure "net") (Nat.le_refl 0) (by decide)

/-- Claim C6: error atomicity of a jobs fetch.  A failed fetch that has
not been superseded clears the records, records the error message, and
clears the loading flag, while page, filters, sort state (and the
cancellation epoch) are untouched; the failure never escapes: the step
is total and produces this state. -/
theorem fetchJobs_error_atomicity (s : JobsState) (fid : Nat) (m : String)
    (h : fid = s.fetchEpoch) :
    stepJobs s (JobsEv.resolve fid (FetchResult.failure m))
      = { s with jobs := [], error := some (errMessage m), isLoading := false } := by
  simp [stepJobs, applyResolve, h]

/-- Witness for C6: the mount-state fetch fails with message "boom". -/
theorem fetchJobs_error_atomicity_witness :
    stepJobs jobsInit (JobsEv.resolve 0 (FetchResult.failure "boom"))
      = { jobsInit with jobs := [], error := some (errMessage "boom"), isLoading := false } :=
  fetchJobs_error_atomicity jobsInit 0 "boom" rfl

/-- Counterexample to claim C3 as stated: in the trace c3trace the last
successful fetch returned exactly PAGE_SIZE records and no fetch is in
flight at the end, yet canGoNext is false, because the later failed
fetch cleared the displayed records. -/
theorem canGoNext_lastSuccess_counterexample :
    lastSuccessLength c3trace = some PAGE_SIZE ∧
    (runJobs jobsInit c3trace).isLoading = false ∧
    canGoNext (runJobs jobsInit c3trace) = false := by decide

/-- Claim C3 (amended): canGoNext holds exactly when the currently held
records (the result of the most recent applied fetch completion) number
exactly PAGE_SIZE and no fetch is in flight; canGoPrev holds exactly
when the page is positive and no fetch is in flight; and a pagination
click moves the page by exactly one exactly when its guard holds. -/
theorem pagination_guards_amended (s : JobsState) :
    (canGoNext s = true ↔ (s.jobs.length = PAGE_SIZE ∧ s.isLoading = false)) ∧
    (canGoPrev s = true ↔ (0 < s.page ∧ s.isLoading = false)) ∧
    (stepJobs s JobsEv.nextPage).page
      = (if canGoNext s = true then s.page + 1 else s.page) ∧
    (stepJobs s JobsEv.prevPage).page
      = (if canGoPrev s = true then s.page - 1 else s.page) := by
  refine ⟨?_, ?_, ?_, ?_⟩
  · simp [canGoNext]
  · simp [canGoPrev]
  · simp only [stepJobs]
    split
    · next h => simp [startFetch, h]
    · next h => simp [h]
  · simp only [stepJobs]
    split
    · next h => simp [startFetch, h]
    · next h => simp [h]
theorem truthy_strFallback_iff (o : Option String) (v : String) :
    (truthy o = true ∧ v = strFallback o) ↔ (o = some v ∧ ¬ v = "") := by
  cases o with
  | none => simp [truthy, strFallback]
  | some a =>
      simp only [truthy, strFallback, Bool.not_eq_true', beq_eq_false_iff_ne,
        ne_eq, Option.some.injEq]
      constructor
      · rintro ⟨h1, h2⟩
        subst h2
        exact ⟨rfl, h1⟩
      · rintro ⟨h1, h2⟩
        subst h1
        exact ⟨h2, rfl⟩

theorem filterParams_mem_vendor (f : Filters) (v : String) :
    (("vendor", v) ∈ filterParams f)
      ↔ (truthy f.vendor = true ∧ v = strFallback f.vendor) := by
  unfold filterParams
  split <;> split <;> split <;> simp_all [Prod.mk.injEq]

theorem filterParams_mem_q (f : Filters) (v : String) :
    (("q", v) ∈ filterParams f)
      ↔ (truthy f.searchTerm = true ∧ v = strFallback f.searchTerm) := by
  unfold filterParams
  split <;> split <;> split <;> simp_all [Prod.mk.injEq]

theorem filterParams_mem_since (f : Filters) (v : String) :
    (("since", v) ∈ filterParams f)
      ↔ (truthy f.since = true ∧ v = strFallback f.since) := by
  unfold filterParams
  split <;> split <;> split <;> simp_all [Prod.mk.injEq]

theorem handleFiltersChange_state (s : JobsState) (p : FilterPatch) :
    (handleFiltersChange s p).page = 0 ∧
    (handleFiltersChange s p).filters = mergeFilters s.filters p := by
  simp only [handleFiltersChange]
  split
  · exact ⟨rfl, rfl⟩
  · exact ⟨rfl, rfl⟩

/-- Claim C2: any filter change resets the page index to 0, and the
fetch request built from the resulting state carries limit 50 and
offset 0 followed by exactly the active merged filters: a vendor, q or
since parameter is present with value v exactly when the merged filter
field holds v and v is non-empty. -/
theorem handleFiltersChange_resets_offset (s : JobsState) (p : FilterPatch) :
    (handleFiltersChange s p).page = 0 ∧
    (handleFiltersChange s p).filters = mergeFilters s.filters p ∧
    fetchJobsParams (handleFiltersChange s p)
      = ("limit", "50") :: ("offset", "0")
          :: filterParams (mergeFilters s.filters p) ∧
    (∀ v, ("vendor", v) ∈ fetchJobsParams (handleFiltersChange s p)
      ↔ ((mergeFilters s.filters p).vendor = some v ∧ ¬ v = "")) ∧
    (∀ v, ("q", v) ∈ fetchJobsParams (handleFiltersChange s p)
      ↔ ((mergeFilters s.filters p).searchTerm = some v ∧ ¬ v = "")) ∧
    (∀ v, ("since", v) ∈ fetchJobsParams (handleFiltersChange s p)
      ↔ ((mergeFilters s.filters p).since = some v ∧ ¬ v = "")) := by
  obtain ⟨hpage, hfilters⟩ := handleFiltersChange_state s p
  have hparams : fetchJobsParams (handleFiltersChange s p)
      = ("limit", "50") :: ("offset", "0")
          :: filterParams (mergeFilters s.filters p) := by
    simp only [fetchJobsParams, hpage, hfilters]
    rfl
  refine ⟨hpage, hfilters, hparams, ?_, ?_, ?_⟩
  · intro v
    rw [hparams, ← truthy_strFallback_iff]
    simp only [List.mem_cons, Prod.mk.injEq]
    rw [← filterParams_mem_vendor]
    simp
  · intro v
    rw [hparams, ← truthy_strFallback_iff]
    simp only [List.mem_cons, Prod.mk.injEq]
    rw [← filterParams_mem_q]
    simp
  · intro v
    rw [hparams, ← truthy_strFallback_iff]
    simp only [List.mem_cons, Prod.mk.injEq]
    rw [← filterParams_mem_since]
    simp

theorem runRuns_ticks_of_not_running (n : Nat) :
    ∀ t : RunsState, hasRunning t = false →
      runRuns t (List.replicate n RunsEv.tick) = t := by
  induction n with
  | zero => intro t ht; rfl
  | succ k ih =>
      intro t ht
      show runRuns (stepRuns t RunsEv.tick) (List.replicate k RunsEv.tick) = t
      have hstep : stepRuns t RunsEv.tick = t := by
        simp [stepRuns, ht]
      rw [hstep]
      exact ih t ht

/-- Claim C4: the poller refreshes exactly while some freshly fetched
run is running.  After a refresh whose list has no running run,
hasRunning is false and any number of interval firings leaves the state
unchanged (no further refresh is scheduled); after a later refresh whose
list has a running run, hasRunning is true again and the next interval
firing starts a refresh. -/
theorem runPoller_schedule (s : RunsState) (rs rs2 : List RunRecord) (n : Nat)
    (h : rs.any (fun r => r.status == some "running") = false)
    (h2 : rs2.any (fun r => r.status == some "running") = true) :
    hasRunning (applyRunsResult s (RunsResult.success (some rs))) = false ∧
    runRuns (applyRunsResult s (RunsResult.success (some rs)))
        (List.replicate n RunsEv.tick)
      = applyRunsResult s (RunsResult.success (some rs)) ∧
    hasRunning (applyRunsResult s (RunsResult.success (some rs2))) = true ∧
    stepRuns (applyRunsResult s (RunsResult.success (some rs2))) RunsEv.tick
      = startRefresh (applyRunsResult s (RunsResult.success (some rs2))) := by
  have ha : hasRunning (applyRunsResult s (RunsResult.success (some rs))) = false := by
    simp only [hasRunning, applyRunsResult, Option.getD]
    exact h
  have hb : hasRunning (applyRunsResult s (RunsResult.success (some rs2))) = true := by
    simp only [hasRunning, applyRunsResult, Option.getD]
    exact h2
  refine ⟨ha, runRuns_ticks_of_not_running n _ ha, hb, ?_⟩
  simp [stepRuns, hb]

/-- Witness for C4: one succeeded run stops the poller for any number of
ticks (here 3); a list holding a running run re-arms it. -/
theorem runPoller_schedule_witness :
    hasRunning (applyRunsResult runsInit (RunsResult.success (some [runDone]))) = false ∧
    runRuns (applyRunsResult runsInit (RunsResult.success (some [runDone])))
        (List.replicate 3 RunsEv.tick)
      = applyRunsResult runsInit (RunsResult.success (some [runDone])) ∧
    hasRunning (applyRunsResult runsInit (RunsResult.success (some [runDone, runActive]))) = true ∧
    stepRuns (applyRunsResult runsInit (RunsResult.success (some [runDone, runActive]))) RunsEv.tick
      = startRefresh (applyRunsResult runsInit (RunsResult.success (some [runDone, runActive]))) :=
  runPoller_schedule runsInit [runDone] [runDone, runActive] 3 (by decide) (by decide)

/-- Counterexample to claim C7 as stated: with a csrf_token cookie in
the jar, the GET request built by apiGet carries no X-CSRFToken header,
and the run-logs fetch does not use include credentials. -/
theorem csrf_counterexample :
    (("X-CSRFToken", "abc123")
        ∉ (apiGetRequest [("csrf_token", "abc123")] "/jobs").headers) ∧
    (fetchLogsRequest [("csrf_token", "abc123")] 7).credentials
      ≠ CredentialsMode.includeCreds := by decide

/-- Claim C7 (amended): requests built by apiGet and apiPost always use
include credentials and carry only the Content-Type header (never an
X-CSRFToken header, whatever the cookie jar holds); the run-logs fetch
uses the default same-origin credentials and no custom headers. -/
theorem requests_credentials_amended (jar : List (String × String))
    (path body : String) (runId : Nat) :
    (apiGetRequest jar path).credentials = CredentialsMode.includeCreds ∧
    (apiPostRequest jar path body).credentials = CredentialsMode.includeCreds ∧
    (∀ v, ("X-CSRFToken", v) ∉ (apiGetRequest jar path).headers) ∧
    (∀ v, ("X-CSRFToken", v) ∉ (apiPostRequest jar path body).headers) ∧
    (fetchLogsRequest jar runId).headers = [] ∧
    (fetchLogsRequest jar runId).credentials = CredentialsMode.sameOrigin := by
  refine ⟨rfl, rfl, ?_, ?_, rfl, rfl⟩
  · intro v h
    simp only [apiGetRequest, List.mem_singleton, Prod.mk.injEq] at h
    exact absurd h.1 (by decide)
  · intro v h
    simp only [apiPostRequest, List.mem_singleton, Prod.mk.injEq] at h
    exact absurd h.1 (by decide)

/-- Claim C10: logout always clears the in-memory session user; the
finally block runs whether the POST /auth/logout call succeeds or
fails. -/
theorem handleLogout_clears_user (s : AppState) (r : PostOutcome) :
    (handleLogout s r).currentUser = none := by
  cases r <;> rfl

theorem compareStrings_nonpos (dir : SortDir) (x y : Option String) :
    (compareStrings dir x y ≤ 0) ↔
      (match dir with
       | SortDir.asc => (strFallback x).toLower ≤ (strFallback y).toLower
       | SortDir.desc => (strFallback y).toLower ≤ (strFallback x).toLower) := by
  cases dir <;>
    · simp only [compareStrings]
      rcases lt_trichotomy ((strFallback x).toLower) ((strFallback y).toLower)
        with h | h | h
      · simp [h, le_of_lt h, lt_asymm h, not_le.mpr h]
      · simp [h, lt_irrefl]
      · simp [h, le_of_lt h, lt_asymm h, not_le.mpr h]

theorem strLe_trans (dir : SortDir) (k : JobRecord → Option String) (a b c : JobRecord)
    (hab : decide (compareStrings dir (k a) (k b) ≤ 0) = true)
    (hbc : decide (compareStrings dir (k b) (k c) ≤ 0) = true) :
    decide (compareStrings dir (k a) (k c) ≤ 0) = true := by
  rw [decide_eq_true_iff] at hab hbc ⊢
  cases dir
  · simp only [compareStrings_nonpos] at hab hbc ⊢
    exact le_trans hab hbc
  · simp only [compareStrings_nonpos] at hab hbc ⊢
    exact le_trans hbc hab

theorem strLe_total (dir : SortDir) (k : JobRecord → Option String) (a b : JobRecord) :
    (decide (compareStrings dir (k a) (k b) ≤ 0)
      || decide (compareStrings dir (k b) (k a) ≤ 0)) = true := by
  rw [Bool.or_eq_true, decide_eq_true_iff, decide_eq_true_iff]
  cases dir <;> simp only [compareStrings_nonpos] <;> exact le_total _ _

theorem compareDates_nonpos (dir : SortDir) (a b : Int) :
    (compareDates dir (some a) (some b) ≤ 0) ↔
      (match dir with
       | SortDir.asc => a ≤ b
       | SortDir.desc => b ≤ a) := by
  cases dir <;>
    · simp only [compareDates, jsLtInt]
      rcases lt_trichotomy a b with h | h | h
      · simp [h, le_of_lt h, lt_asymm h, not_le.mpr h]
      · simp [h, lt_irrefl]
      · simp [h, le_of_lt h, lt_asymm h, not_le.mpr h]

theorem postTime_isSome (parse : String → Option Int)
    (hp : ∀ str, (parse str).isSome = true) (a : JobRecord) :
    (postTime parse a).isSome = true := by
  unfold postTime
  cases a.postDate with
  | none => rfl
  | some s =>
      by_cases hs : s = ""
      · simp [hs]
      · simp [hs, hp s]

theorem dateLe_trans (parse : String → Option Int)
    (hp : ∀ str, (parse str).isSome = true) (dir : SortDir) (a b c : JobRecord)
    (hab : decide (compareDates dir (postTime parse a) (postTime parse b) ≤ 0) = true)
    (hbc : decide (compareDates dir (postTime parse b) (postTime parse c) ≤ 0) = true) :
    decide (compareDates dir (postTime parse a) (postTime parse c) ≤ 0) = true := by
  obtain ⟨ta, hta⟩ := Option.isSome_iff_exists.mp (postTime_isSome parse hp a)
  obtain ⟨tb, htb⟩ := Option.isSome_iff_exists.mp (postTime_isSome parse hp b)
  obtain ⟨tc, htc⟩ := Option.isSome_iff_exists.mp (postTime_isSome parse hp c)
  rw [hta, htb] at hab
  rw [htb, htc] at hbc
  rw [hta, htc]
  rw [decide_eq_true_iff] at hab hbc ⊢
  cases dir
  · simp only [compareDates_nonpos] at hab hbc ⊢
    exact le_trans hab hbc
  · simp only [compareDates_nonpos] at hab hbc ⊢
    exact le_trans hbc hab

theorem dateLe_total (parse : String → Option Int)
    (hp : ∀ str, (parse str).isSome = true) (dir : SortDir) (a b : JobRecord) :
    (decide (compareDates dir (postTime parse a) (postTime parse b) ≤ 0)
      || decide (compareDates dir (postTime parse b) (postTime parse a) ≤ 0)) = true := by
  obtain ⟨ta, hta⟩ := Option.isSome_iff_exists.mp (postTime_isSome parse hp a)
  obtain ⟨tb, htb⟩ := Option.isSome_iff_exists.mp (postTime_isSome parse hp b)
  rw [hta, htb, Bool.or_eq_true, decide_eq_true_iff, decide_eq_true_iff]
  cases dir <;> simp only [compareDates_nonpos] <;> exact le_total _ _

theorem mergeSort_idempotent {α : Type} (le : α → α → Bool)
    (htrans : ∀ a b c : α, le a b = true → le b c = true → le a c = true)
    (htotal : ∀ a b : α, (le a b || le b a) = true)
    (l : List α) :
    (l.mergeSort le).mergeSort le = l.mergeSort le :=
  List.mergeSort_of_sorted (List.sorted_mergeSort htrans htotal l)

/-- Counterexample to claim C5 as stated: on the page c5jobs, one of
whose records carries an unparsable date (NaN compares equal to every
timestamp, making the comparator inconsistent), sorting the
already-sorted page again by date ascending changes the order. -/
theorem sort_idempotent_counterexample :
    sortedJobs demoParse (some SortField.date) SortDir.asc
        (sortedJobs demoParse (some SortField.date) SortDir.asc c5jobs)
      ≠ sortedJobs demoParse (some SortField.date) SortDir.asc c5jobs := by
  simp [sortedJobs, c5jobs, dateOnly, demoParse, List.mergeSort, List.merge,
    jobCompare, compareDates, postTime, jsLtInt]

/-- Claim C5 (amended): sorting an already-sorted page again by the same
field and direction yields an identical order provided every date string
parses (for string fields this holds unconditionally; an unparsable date
makes the date comparator inconsistent and can break idempotence); and
toggling the direction twice on the active field restores the sort state
and hence the displayed order. -/
theorem sort_idempotent_toggle_amended (parse : String → Option Int)
    (hp : ∀ str, (parse str).isSome = true)
    (field : SortField) (dir : SortDir) (js : List JobRecord)
    (s : SortState) (f : SortField) (hf : s.sortField = f) :
    sortedJobs parse (some field) dir (sortedJobs parse (some field) dir js)
      = sortedJobs parse (some field) dir js ∧
    handleSort f (handleSort f s) = s ∧
    sortedJobs parse (some (handleSort f (handleSort f s)).sortField)
        (handleSort f (handleSort f s)).sortDirection js
      = sortedJobs parse (some s.sortField) s.sortDirection js := by
  have htoggle : handleSort f (handleSort f s) = s := by
    rcases s with ⟨sf, sd⟩
    cases hf
    simp only [handleSort, if_pos]
    cases sd <;> rfl
  refine ⟨?_, htoggle, by rw [htoggle]⟩
  cases field with
  | date =>
      simp only [sortedJobs]
      exact mergeSort_idempotent _
        (fun a b c => dateLe_trans parse hp dir a b c)
        (fun a b => dateLe_total parse hp dir a b) js
  | title =>
      simp only [sortedJobs]
      exact mergeSort_idempotent _
        (fun a b c => strLe_trans dir (fun j => j.positionTitle) a b c)
        (fun a b => strLe_total dir (fun j => j.positionTitle) a b) js
  | location =>
      simp only [sortedJobs]
      exact mergeSort_idempotent _
        (fun a b c => strLe_trans dir locationValue a b c)
        (fun a b => strLe_total dir locationValue a b) js
  | company =>
      simp only [sortedJobs]
      exact mergeSort_idempotent _
        (fun a b c => strLe_trans dir (fun j => j.vendor) a b c)
        (fun a b => strLe_total dir (fun j => j.vendor) a b) js

/-- Witness for C5 (amended) with the total parse parseAll on the page
c5jobs and the initial sort state. -/
theorem sort_idempotent_toggle_amended_witness :
    (sortedJobs parseAll (some SortField.date) SortDir.asc
        (sortedJobs parseAll (some SortField.date) SortDir.asc c5jobs)
      = sortedJobs parseAll (some SortField.date) SortDir.asc c5jobs) ∧
    handleSort SortField.date (handleSort SortField.date demoSort) = demoSort ∧
    sortedJobs parseAll
        (some (handleSort SortField.date (handleSort SortField.date demoSort)).sortField)
        (handleSort SortField.date (handleSort SortField.date demoSort)).sortDirection
        c5jobs
      = sortedJobs parseAll (some demoSort.sortField) demoSort.sortDirection c5jobs :=
  sort_idempotent_toggle_amended parseAll (fun _ => rfl) SortField.date SortDir.asc
    c5jobs demoSort SortField.date rfl

/-- Counterexample to claim C9 as stated: its fallback clause says an
unparsable date sorts as timestamp 0, but the code compares NaN equal to
everything; on c9jobs, whose other record has a negative timestamp, the
code order differs from the order under the claimed timestamp-0
reading. -/
theorem sortedJobs_nan_counterexample :
    sortedJobs demoParse (some SortField.date) SortDir.asc c9jobs
      = [dateOnly (some "bad"), dateOnly (some "neg")] ∧
    sortedJobsSpecDate demoParse SortDir.asc c9jobs
      = [dateOnly (some "neg"), dateOnly (some "bad")] ∧
    sortedJobs demoParse (some SortField.date) SortDir.asc c9jobs
      ≠ sortedJobsSpecDate demoParse SortDir.asc c9jobs := by
  simp [sortedJobs, sortedJobsSpecDate, c9jobs, dateOnly, demoParse,
    List.mergeSort, List.merge, jobCompare, compareDates, postTime,
    postTimeSpec, jsLtInt]

/-- Claim C9 (amended): the sorted view is always a permutation of the
fetched page (so it never adds, drops or duplicates a record) and is
total for records with missing fields: a missing date counts as
timestamp 0, missing strings compare as the empty string — but an
unparsable date compares equal to every record (NaN), not as
timestamp 0. -/
theorem sortedJobs_permutation_amended (parse : String → Option Int)
    (sortField : Option SortField) (dir : SortDir) (js : List JobRecord)
    (j0 : JobRecord) :
    (sortedJobs parse sortField dir js).Perm js ∧
    (sortedJobs parse sortField dir js).length = js.length ∧
    (∀ a, a ∈ sortedJobs parse sortField dir js ↔ a ∈ js) ∧
    postTime parse { j0 with postDate := none } = some 0 ∧
    (∀ tb, compareDates dir none tb = 0) ∧
    (∀ ta, compareDates dir ta none = 0) ∧
    (∀ y, compareStrings dir none y = compareStrings dir (some "") y) ∧
    (∀ x, compareStrings dir x none = compareStrings dir x (some "")) := by
  have hperm : (sortedJobs parse sortField dir js).Perm js := by
    cases sortField with
    | none => exact List.Perm.refl js
    | some f => exact List.mergeSort_perm js _
  refine ⟨hperm, hperm.length_eq, fun a => hperm.mem_iff, rfl, ?_, ?_, ?_, ?_⟩
  · intro tb
    cases tb <;> rfl
  · intro ta
    cases ta <;> rfl
  · intro y
    rfl
  · intro x
    rfl

/-- Counterexample to claim C8 as stated: two rows with the same Vendor
name produce a duplicated, not distinct, vendor list. -/
theorem vendorNames_distinct_counterexample :
    fetchVendorsNames
        (some [{ vendor := some "Acme", n := 1 }, { vendor := some "Acme", n := 2 }])
      = ["Acme", "Acme"] ∧
    ¬ List.Nodup (fetchVendorsNames
        (some [{ vendor := some "Acme", n := 1 }, { vendor := some "Acme", n := 2 }])) := by
  simp [fetchVendorsNames, extractedVendorNames, truthy, List.mergeSort, List.merge]

/-- Claim C8 (amended): a non-array payload yields the empty list; an
array payload yields the truthy vendor names, sorted ascending, as a
permutation of the extracted names — duplicates are preserved, so the
result is duplicate-free exactly when the extracted names are. -/
theorem vendorNames_amended (rows : List VendorRow) :
    fetchVendorsNames none = [] ∧
    (fetchVendorsNames (some rows)).Perm (extractedVendorNames rows) ∧
    List.Pairwise (fun a b : String => a ≤ b) (fetchVendorsNames (some rows)) ∧
    ((fetchVendorsNames (some rows)).Nodup ↔ (extractedVendorNames rows).Nodup) := by
  have hperm : (fetchVendorsNames (some rows)).Perm (extractedVendorNames rows) :=
    List.mergeSort_perm _ _
  refine ⟨rfl, hperm, ?_, hperm.nodup_iff⟩
  have hs := @List.sorted_mergeSort String (fun a b : String => decide (a ≤ b))
    (fun a b c hab hbc => by
      rw [decide_eq_true_iff] at hab hbc ⊢
      exact le_trans hab hbc)
    (fun a b => by
      rw [Bool.or_eq_true, decide_eq_true_iff, decide_eq_true_iff]
      exact le_total a b)
    (extractedVendorNames rows)
  exact List.Pairwise.imp (fun hab => of_decide_eq_true hab) hs
